import Mathlib

/-!
Verification development for the knuspr CLI client (`knuspr_cli.py`).

The Python source is shallowly embedded: JSON values become an inductive
type, Python dicts become association lists (insertion ordered, as in
CPython), numbers become rationals, missing/`None` values become `Option`,
and raised exceptions become `Except` results.  Python truthiness
(`if not x`, `a or b`) is modelled explicitly.
-/

/-- A decoded JSON value, as produced by `json.loads`.  Python `None` is
`null`, dicts are insertion-ordered association lists. -/
inductive Json where
  | null
  | bool (b : Bool)
  | num (q : ℚ)
  | str (s : String)
  | arr (xs : List Json)
  | obj (kvs : List (String × Json))

/-- Python truthiness of a decoded JSON value (`bool(x)`): `None`, `False`,
`0`, `""`, `[]`, `{}` are falsy. -/
def jsonTruthy : Json → Bool
  | .null => false
  | .bool b => b
  | .num q => q != 0
  | .str s => s != ""
  | .arr xs => !xs.isEmpty
  | .obj kvs => !kvs.isEmpty

/-- `d.get(k)` on a decoded JSON object: first binding for `k`, if any
(decoded objects have unique keys). -/
def jlookup : List (String × Json) → String → Option Json
  | [], _ => none
  | kv :: rest, k => if kv.1 = k then some kv.2 else jlookup rest k

/-- `d.get(k, default)` on a decoded JSON object. -/
def jlookupD (kvs : List (String × Json)) (k : String) (d : Json) : Json :=
  (jlookup kvs k).getD d

/-- Truthiness of an optional number (`if not x` on an int/float-or-None
field): `None` and `0` are falsy. -/
def truthyN : Option ℕ → Bool
  | none => false
  | some n => n != 0

/-- Truthiness of an optional string: `None` and `""` are falsy. -/
def truthyS : Option String → Bool
  | none => false
  | some s => s != ""

/-- Truthiness of an optional rational: `None` and `0` are falsy. -/
def truthyQ : Option ℚ → Bool
  | none => false
  | some q => q != 0

/-- Python `a or b` on two optional numeric fields. -/
def pyOrN (a b : Option ℕ) : Option ℕ := if truthyN a then a else b

/-- Python `a or b` on two optional string fields. -/
def pyOrS (a b : Option String) : Option String := if truthyS a then a else b

/-- Python `a or d` where `a` is an optional rational and `d` a literal
default (`product.get("quantity") or 1`, `... or 0`). -/
def pyOrQD (a : Option ℚ) (d : ℚ) : ℚ := if truthyQ a then a.getD d else d

/-!
## Purchase-history aggregation (`cmd_frequent` / `cmd_meals`)

One line item of an order detail, restricted to the fields the aggregation
loop reads.  `product.get("productId") or product.get("id")` resolves the
id, `product.get("productName") or product.get("name")` the name.
Presentation-only fields (brand, categories, last order date) are
independent of the frequency/average-price statistics and are not carried.
-/
structure LineItem where
  productId : Option ℕ
  idField : Option ℕ
  productName : Option String
  nameField : Option String
  price : Option ℚ
  quantity : Option ℚ
deriving DecidableEq, Repr

/-- `product.get("productId") or product.get("id")`. -/
def item_id (p : LineItem) : Option ℕ := pyOrN p.productId p.idField

/-- `product.get("productName") or product.get("name")`. -/
def item_name (p : LineItem) : Option String := pyOrS p.productName p.nameField

/-- The guard `if not product_id or not product_name: continue`: the item
is aggregated only when both the resolved id and name are truthy. -/
def item_valid (p : LineItem) : Bool := truthyN (item_id p) && truthyS (item_name p)

/-- One `PurchaseStat` entry of `product_map` (statistics fields only). -/
structure Stat where
  frequency : ℕ
  total_quantity : ℚ
  average_price : ℚ
deriving DecidableEq, Repr

/-- The `else` branch inserting a fresh `product_map` entry:
`frequency = 1`, `total_quantity = product.get("quantity") or 1`,
`average_price = product.get("price") or 0`. -/
def initStat (p : LineItem) : Stat :=
  { frequency := 1
    total_quantity := pyOrQD p.quantity 1
    average_price := pyOrQD p.price 0 }

/-- The `if key in product_map` branch: increment `frequency`, add the
quantity, and fold the price into the running average only when the price
is truthy, via `(current_avg * (frequency - 1) + price) / frequency` with
the already-incremented frequency.  (`existing.get("average_price") or 0`
is the stored average itself, a number.) -/
def updStat (st : Stat) (p : LineItem) : Stat :=
  let freq : ℕ := st.frequency + 1
  { frequency := freq
    total_quantity := st.total_quantity + pyOrQD p.quantity 1
    average_price :=
      if truthyQ p.price then
        (st.average_price * ((freq : ℚ) - 1) + (p.price.getD 0)) / (freq : ℚ)
      else st.average_price }

/-- `product_map` keyed by the (stringified) product id. -/
def lookupStat : List (ℕ × Stat) → ℕ → Option Stat
  | [], _ => none
  | kv :: rest, k => if kv.1 = k then some kv.2 else lookupStat rest k

/-- In-place update of an existing key (CPython dict assignment keeps the
original insertion position); appends when the key is absent. -/
def setStat : List (ℕ × Stat) → ℕ → Stat → List (ℕ × Stat)
  | [], k, st => [(k, st)]
  | kv :: rest, k, st => if kv.1 = k then (k, st) :: rest else kv :: setStat rest k st

/-- The body of `for product in products`: skip invalid items, update an
existing entry or insert a fresh one. -/
def processItem (m : List (ℕ × Stat)) (p : LineItem) : List (ℕ × Stat) :=
  if item_valid p then
    let k := (item_id p).getD 0
    match lookupStat m k with
    | some st => setStat m k (updStat st p)
    | none => m ++ [(k, initStat p)]
  else m

/-- Process all line items of one successfully fetched order detail. -/
def processOrder (m : List (ℕ × Stat)) (items : List LineItem) : List (ℕ × Stat) :=
  items.foldl processItem m

/-- The whole scan over the order window.  Each element is the line-item
list of one order; `none` stands for an order that was skipped (missing
order id, failed detail fetch, or empty/falsy detail — the broad
`except: continue`). -/
def runScan (fetched : List (Option (List LineItem))) : List (ℕ × Stat) :=
  fetched.foldl (fun m o => match o with | some items => processOrder m items | none => m) []

/-- Frequency recorded for product id `k` (0 when absent). -/
def freqOf (m : List (ℕ × Stat)) (k : ℕ) : ℕ :=
  match lookupStat m k with
  | some st => st.frequency
  | none => 0

/-- Whether a line item is a counted occurrence of product id `k`. -/
def isOcc (k : ℕ) (p : LineItem) : Bool := item_valid p && item_id p == some k

/-- Number of counted occurrences of product id `k` across the
successfully processed orders. -/
def occCount (k : ℕ) (fetched : List (Option (List LineItem))) : ℕ :=
  ((fetched.filterMap id).map (fun items => items.countP (isOcc k))).sum

/-- The occurrences of product id `k`, in processing order. -/
def occList (k : ℕ) (fetched : List (Option (List LineItem))) : List LineItem :=
  ((fetched.filterMap id).flatten).filter (isOcc k)

/-- One step of the per-product statistics: the first occurrence
initialises the entry, later ones update it. -/
def stat_step (acc : Option Stat) (p : LineItem) : Option Stat :=
  some (match acc with | some st => updStat st p | none => initStat p)

/-- Folding the per-product statistics over just that product's
occurrences. -/
def foldStat (ps : List LineItem) : Option Stat :=
  ps.foldl stat_step none

/-- Frequency of an optional statistics entry (0 when absent). -/
def optFreq : Option Stat → ℕ
  | some st => st.frequency
  | none => 0

/-- A line item with given id, name and price, as used to state the
average-price property. -/
def mkPricedItem (k : ℕ) (name : String) (price : ℚ) : LineItem :=
  ⟨some k, none, some name, none, some price, some 1⟩

/-- A line item for product `k` whose price field is absent. -/
def mkUnpricedItem (k : ℕ) (name : String) : LineItem :=
  ⟨some k, none, some name, none, none, some 1⟩

/-!
## HTTP gateway (`_make_request`) and per-caller envelope normalization
-/

/-- The value `_make_request` hands back on HTTP success (lines 148-151):
the decoded body when the response text is non-empty, `{}` otherwise.  The
argument is the decoded body, `none` standing for an empty response text. -/
def make_request_value : Option Json → Json
  | some j => j
  | none => .obj []

/-- Modelled from the spec (§4.3, for comparison only): the normalization
the spec ascribes to the gateway — a list as-is, the `data` member of an
object that has one, any other value unchanged. -/
def spec_gateway_normalize (j : Json) : Json :=
  match j with
  | .obj kvs =>
    match jlookup kvs "data" with
    | some v => v
    | none => .obj kvs
  | other => other

/-- `get_order_history` after the request (lines 474-477): a list response
is returned as-is; for a dict, `data = response.get("data", response)`;
the result is `data` if it is a list, else `[data]` if truthy, else `[]`. -/
def get_order_history_value (response : Json) : Json :=
  match response with
  | .arr l => .arr l
  | .obj kvs =>
    let data := jlookupD kvs "data" (.obj kvs)
    match data with
    | .arr l => .arr l
    | d => if jsonTruthy d then .arr [d] else .arr []
  | other => if jsonTruthy other then .arr [other] else .arr []

/-- `get_order_detail` after the request (lines 485-487): for a dict,
`response.get("data", response)`; anything else unchanged. -/
def get_order_detail_value (response : Json) : Json :=
  match response with
  | .obj kvs => jlookupD kvs "data" (.obj kvs)
  | other => other

/-!
## Reservation lookup (`get_current_reservation`)
-/

/-- A raised `KnusprAPIError`: `status` is the HTTP status code, `none`
for a connection error (no status). -/
structure KErr where
  status : Option ℕ
deriving DecidableEq, Repr

/-- `get_current_reservation` (lines 541-549) over the outcome of its
upstream request.  On success, a dict yields `response.get("data",
response)` when the dict is truthy and Python `None` (here `Json.null`)
otherwise; a non-dict is returned unchanged.  A `KnusprAPIError` with
status 404 yields `None`; any other error re-raises. -/
def get_current_reservation (outcome : Except KErr Json) : Except KErr Json :=
  match outcome with
  | .error e => if e.status = some 404 then .ok .null else .error e
  | .ok response =>
    .ok (match response with
      | .obj kvs => if jsonTruthy (.obj kvs) then jlookupD kvs "data" (.obj kvs) else .null
      | other => other)

/-!
## Session state (`_parse_cookie`, `_save_session`, `_load_session`,
`_clear_session`, `login`, `is_logged_in`)
-/

/-- The in-memory session: cookie map (insertion ordered), user id and
address id (numbers or `None`). -/
structure Session where
  cookies : List (String × String)
  user_id : Option ℚ
  address_id : Option ℚ
deriving DecidableEq, Repr

/-- The state set by `__init__` before `_load_session`. -/
def empty_session : Session := ⟨[], none, none⟩

/-- CPython dict assignment `cookies[name] = value`: overwrite in place
(keeping the original insertion position) or append. -/
def update_cookie : List (String × String) → String → String → List (String × String)
  | [], n, v => [(n, v)]
  | kv :: rest, n, v => if kv.1 = n then (n, v) :: rest else kv :: update_cookie rest n v

/-- Python `str.split(sep)` for a one-character separator (both `";"` and
`"="` here): always returns at least one piece. -/
def splitChar (c : Char) (s : List Char) : List (List Char) :=
  s.foldr
    (fun ch acc => if ch = c then [] :: acc else (ch :: acc.headD []) :: acc.tail)
    [[]]

/-- Python `str.split(sep, 1)` restricted to what `_parse_cookie` needs:
the text before and after the first occurrence of `sep`, or `none` when
`sep` does not occur (the `"=" in cookie_part` test). -/
def splitFirst (c : Char) : List Char → Option (List Char × List Char)
  | [] => none
  | ch :: rest =>
    if ch = c then some ([], rest)
    else (splitFirst c rest).map (fun pr => (ch :: pr.1, pr.2))

/-- Python `str.strip()`: drop whitespace from both ends. -/
def stripChars (s : List Char) : List Char :=
  ((s.dropWhile Char.isWhitespace).reverse.dropWhile Char.isWhitespace).reverse

/-- `_parse_cookie` (lines 162-169): take the text before the first `;`
(`split(";")` yields a non-empty list, so `if parts:` always passes),
strip it, and if it contains `=`, split at the first `=` into name and
value, strip both and store the cookie. -/
def parse_cookie (s : Session) (header : String) : Session :=
  let cookie_part := stripChars ((splitChar ';' header.toList).headD [])
  match splitFirst '=' cookie_part with
  | some (name, value) =>
    { s with cookies :=
        update_cookie s.cookies (String.mk (stripChars name)) (String.mk (stripChars value)) }
  | none => s

/-- `_clear_session`: reset the in-memory session to empty (and delete the
file). -/
def clear_session : Session := empty_session

/-- The successful tail of `login` (lines 233-236): sets `user_id` from
`user["id"]` (checked truthy) and `address_id` from
`data.get("address", {}).get("id")`. -/
def login_success (s : Session) (uid : ℚ) (addr : Option ℚ) : Session :=
  { s with user_id := some uid, address_id := addr }

/-- `is_logged_in`: `bool(self.cookies and self.user_id)`. -/
def is_logged_in (s : Session) : Bool :=
  !s.cookies.isEmpty && truthyQ s.user_id

/-- The authenticated half of the spec's session invariant: cookies
non-empty and user id set. -/
def session_authenticated (s : Session) : Bool :=
  !s.cookies.isEmpty && !s.user_id.isNone

/-- The other half: the session is entirely empty. -/
def session_empty (s : Session) : Bool :=
  s.cookies.isEmpty && s.user_id.isNone && s.address_id.isNone

/-!
## Session persistence (`_save_session` / `_load_session`)
-/

/-- The contents of the session file as `_load_session` finds it. -/
inductive FileState where
  | missing
  | malformed
  | content (j : Json)

/-- `_save_session` (lines 171-179): the JSON object written to the file. -/
def save_session (s : Session) : Json :=
  .obj [("cookies", .obj (s.cookies.map (fun kv => (kv.1, .str kv.2)))),
        ("user_id", match s.user_id with | some q => .num q | none => .null),
        ("address_id", match s.address_id with | some q => .num q | none => .null)]

/-- Reading back the cookie dict: `_save_session` only ever writes string
values, which this extraction inverts. -/
def cookies_of_json : Json → List (String × String)
  | .obj kvs => kvs.filterMap (fun kv => match kv.2 with | .str v => some (kv.1, v) | _ => none)
  | _ => []

/-- Reading back a numeric-or-null id field (`data.get(...)`). -/
def id_of_json : Option Json → Option ℚ
  | some (.num q) => some q
  | _ => none

/-- `_load_session` (lines 181-191), starting from the empty session of
`__init__`: a missing file leaves it empty; a file that fails to decode is
swallowed by `except (JSONDecodeError, IOError)`; a decoded object has its
fields extracted with `data.get`; but a decoded non-object (a JSON list,
string, number or null) hits `data.get` on a non-dict and raises
`AttributeError`, which the `except` clause does not catch. -/
def load_session (fs : FileState) : Except String Session :=
  match fs with
  | .missing => .ok empty_session
  | .malformed => .ok empty_session
  | .content j =>
    match j with
    | .obj kvs =>
      .ok { cookies := cookies_of_json (jlookupD kvs "cookies" (.obj []))
            user_id := id_of_json (jlookup kvs "user_id")
            address_id := id_of_json (jlookup kvs "address_id") }
    | _ => .error "AttributeError"

/-!
## Rate limiter (`_rate_limit`)

Wall-clock time is modelled as a rational number of seconds; `time.sleep`
advances it by exactly the requested duration (real sleeps are at least as
long, so the lower bound proved below holds a fortiori) and the
`time.time()` after the sleep reads the instant the sleep ended.
-/

/-- `_min_request_interval` (100 ms). -/
def min_request_interval : ℚ := 1/10

/-- `_rate_limit` (lines 93-99): result is the time at which the function
returns (and the new `_last_request_time`), given the stored last-request
time and the current clock. -/
def rate_limit (last now : ℚ) : ℚ :=
  if now - last < min_request_interval then
    now + (min_request_interval - (now - last))
  else now

/-- The return times of a sequence of `_rate_limit` calls arriving at the
given clock instants, threading `_last_request_time`. -/
def rate_trace (last : ℚ) : List ℚ → List ℚ
  | [] => []
  | t :: ts => rate_limit last t :: rate_trace (rate_limit last t) ts

/-!
## Delivery-slot flattening and status classification (`cmd_slots`)
-/

/-- One entry of `all_days` (line 1674): date, label, and the flattened
slot list of one availability day. -/
structure SlotDay where
  date : Json
  label : Json
  slots : List Json

/-- Flattening one day's `slots` mapping (lines 1668-1672): extend with
every hour bucket whose value is a list; a non-dict `slots` field yields
no entries. -/
def day_slots : Json → List Json
  | .obj buckets =>
    buckets.foldl (fun acc kv => match kv.2 with | .arr l => acc ++ l | _ => acc) []
  | _ => []

/-- Sum of the sizes of the list-valued hour buckets of a day's `slots`
mapping. -/
def bucket_size_sum : Json → ℕ
  | .obj buckets =>
    (buckets.map (fun kv => match kv.2 with | .arr l => l.length | _ => 0)).sum
  | _ => 0

/-- Sum of the sizes of the list-valued hour buckets of a day object. -/
def day_bucket_sum : Json → ℕ
  | .obj kvs => bucket_size_sum (jlookupD kvs "slots" (.obj []))
  | _ => 0

/-- Processing one element of `availabilityDays` (lines 1663-1674): a
non-dict day is skipped, and a day is appended to `all_days` only when its
flattened slot list is non-empty (`if day_slots:`). -/
def flatten_day : Json → Option SlotDay
  | .obj kvs =>
    let ds := day_slots (jlookupD kvs "slots" (.obj []))
    if ds.isEmpty then none
    else some ⟨jlookupD kvs "date" (.str ""), jlookupD kvs "label" (.str ""), ds⟩
  | _ => none

/-- `response_item.get("availabilityDays", [])` of one top-level block
(line 1662); only dict blocks are examined, and only a list value is
iterated. -/
def availability_days : Json → List Json
  | .obj kvs =>
    match jlookupD kvs "availabilityDays" (.arr []) with
    | .arr l => l
    | _ => []
  | _ => []

/-- The full `all_days` construction (lines 1659-1674). -/
def all_days (raw_slots : List Json) : List SlotDay :=
  (raw_slots.flatMap availability_days).filterMap flatten_day

/-- Slot booking status as rendered by `cmd_slots`. -/
inductive SlotStatus where
  | available
  | limited
  | bookedOut
deriving DecidableEq, Repr

/-- The status cascade of lines 1716-1723, over the capacity message, the
`capacity` tier string and `totalFreeCapacityPercent`. -/
def slot_status (capacity_msg : String) (capacity : String) (capacity_percent : ℚ) : SlotStatus :=
  if capacity_msg = "Ausgebucht" ∨ capacity_percent = 0 then .bookedOut
  else if capacity = "GREEN" ∧ capacity_percent ≥ 50 then .available
  else if capacity = "GREEN" ∨ capacity_percent > 0 then .limited
  else .bookedOut

/-- Modelled from the spec (§4.6, for comparison only): the classification
the claim states, tiered by the free-capacity percent alone. -/
def spec_slot_status (capacity_msg : String) (capacity_percent : ℚ) : SlotStatus :=
  if capacity_msg = "Ausgebucht" ∨ capacity_percent = 0 then .bookedOut
  else if capacity_percent ≥ 50 then .available
  else if capacity_percent > 0 then .limited
  else .bookedOut

/-!
## Favorites discovery (`get_favorites`)
-/

/-- One product of a search-metadata page, restricted to the fields the
favorites loop reads (the remaining fields of the built entry are copied
verbatim and carry no logic). -/
structure SProduct where
  productId : Option ℕ
  productName : String
  favourite : Bool
deriving DecidableEq, Repr

/-- One collected favorites entry (`id` and `name` of the built dict). -/
structure FavEntry where
  id : Option ℕ
  name : String
deriving DecidableEq, Repr

/-- Map membership test (`p.get("productId") not in all_favorites`). -/
def fav_mem : List (Option ℕ × FavEntry) → Option ℕ → Bool
  | [], _ => false
  | kv :: rest, k => kv.1 == k || fav_mem rest k

/-- The body of `for p in products` (lines 886-899): insert a new entry,
keyed by product id, when the product is favorite-flagged and the id is
not yet present (first occurrence wins). -/
def insert_fav (acc : List (Option ℕ × FavEntry)) (p : SProduct) : List (Option ℕ × FavEntry) :=
  if p.favourite && !fav_mem acc p.productId then
    acc ++ [(p.productId, ⟨p.productId, p.productName⟩)]
  else acc

/-- The inner `while offset < max_offset` loop for one probe term
(lines 872-907).  `fetch` is the outcome of the search request at a given
offset: the page's product list, or a raised `KnusprAPIError`.  An error
breaks out of the loop for this term; a page shorter than `limit` is the
end-of-results sentinel; otherwise the offset advances by `limit`.  The
fuel bounds the number of iterations (its callers pass enough for every
offset below `max_offset`). -/
def term_pages (fetch : ℕ → Except KErr (List SProduct)) (limit maxOff : ℕ) :
    ℕ → ℕ → List (Option ℕ × FavEntry) → List (Option ℕ × FavEntry)
  | _, 0, acc => acc
  | offset, fuel + 1, acc =>
    if offset < maxOff then
      match fetch offset with
      | .error _ => acc
      | .ok products =>
        let acc' := products.foldl insert_fav acc
        if products.length < limit then acc'
        else term_pages fetch limit maxOff (offset + limit) fuel acc'
    else acc

/-- Case-insensitive sort key (`p.get("name", "").lower()`). -/
def fav_key (e : FavEntry) : String := e.name.toLower

/-- `get_favorites` (lines 856-910): scan the four probe terms in order
(limit 500, maximum offset 1000, hence at most two pages per term),
collect favorite-flagged products first-occurrence-wins, and sort the
collected entries case-insensitively by name (`sorted` is a stable sort
on the `lower()`-cased name). -/
def get_favorites (fetch : String → ℕ → Except KErr (List SProduct)) : List FavEntry :=
  let all_favorites :=
    (["e", "a", "n", "i"] : List String).foldl
      (fun acc term => term_pages (fetch term) 500 1000 0 2 acc) []
  (all_favorites.map (fun kv => kv.2)).mergeSort (fun a b => fav_key a ≤ fav_key b)

/-- Replacing every fetch failure by an empty successful page: the shape
the error-isolation property compares a run against. -/
def purify_fetch (fetch : String → ℕ → Except KErr (List SProduct)) :
    String → ℕ → Except KErr (List SProduct) :=
  fun term offset => match fetch term offset with
    | .error _ => .ok []
    | .ok l => .ok l

/-!
## Theorems

Helper lemmas first, then one theorem per claim (with witnesses and
counterexamples where applicable).
-/

theorem lookupStat_setStat (m : List (ℕ × Stat)) (k : ℕ) (st : Stat) (k' : ℕ) :
    lookupStat (setStat m k st) k' = if k' = k then some st else lookupStat m k' := by
  induction m with
  | nil =>
    by_cases h : k' = k
    · simp [setStat, lookupStat, h]
    · simp [setStat, lookupStat, h, Ne.symm h]
  | cons kv rest ih =>
    by_cases h : kv.1 = k
    · by_cases h' : k' = k
      · simp [setStat, lookupStat, h, h']
      · have hkv : kv.1 ≠ k' := by rw [h]; exact Ne.symm h'
        simp [setStat, lookupStat, h, h', Ne.symm h', hkv]
    · by_cases h'' : kv.1 = k'
      · have hkk : ¬ k' = k := fun hh => h (h''.trans hh)
        simp [setStat, lookupStat, h, h'', hkk]
      · simp [setStat, lookupStat, h, h'', ih]

theorem lookupStat_append_single (m : List (ℕ × Stat)) (k : ℕ) (st : Stat) (k' : ℕ) :
    lookupStat (m ++ [(k, st)]) k' =
      match lookupStat m k' with
      | some v => some v
      | none => if k' = k then some st else none := by
  induction m with
  | nil =>
    by_cases h : k' = k
    · simp [lookupStat, h]
    · simp [lookupStat, h, Ne.symm h]
  | cons kv rest ih =>
    by_cases h : kv.1 = k'
    · simp [lookupStat, h]
    · simp [lookupStat, h, ih]

theorem item_valid_id (p : LineItem) (h : item_valid p = true) :
    ∃ n, item_id p = some n ∧ n ≠ 0 := by
  have h1 : truthyN (item_id p) = true := by
    simp only [item_valid, Bool.and_eq_true] at h
    exact h.1
  cases hid : item_id p with
  | none => rw [hid] at h1; simp [truthyN] at h1
  | some n =>
    rw [hid] at h1
    simp only [truthyN, ne_eq, bne_iff_ne] at h1
    exact ⟨n, rfl, h1⟩

theorem lookupStat_processItem (m : List (ℕ × Stat)) (p : LineItem) (k : ℕ) :
    lookupStat (processItem m p) k =
      if isOcc k p then stat_step (lookupStat m k) p else lookupStat m k := by
  by_cases hv : item_valid p
  · obtain ⟨n, hid, hn0⟩ := item_valid_id p hv
    simp only [processItem, hv, if_true, hid, Option.getD_some, isOcc, stat_step]
    by_cases hk : k = n
    · subst hk
      cases hm : lookupStat m k with
      | some st => rw [lookupStat_setStat]; simp [hv, hm]
      | none => rw [lookupStat_append_single]; simp [hv, hm]
    · have hne : (some n == some k) = false := by
        simp only [beq_eq_false_iff_ne, ne_eq, Option.some.injEq]
        exact fun hh => hk hh.symm
      simp only [hne, Bool.and_false, Bool.false_eq_true, if_false]
      cases hm : lookupStat m n with
      | some st =>
        rw [lookupStat_setStat, if_neg hk]
      | none =>
        rw [lookupStat_append_single]
        cases lookupStat m k <;> simp [hk]
  · simp [processItem, hv, isOcc]

theorem lookupStat_processOrder (m : List (ℕ × Stat)) (items : List LineItem) (k : ℕ) :
    lookupStat (processOrder m items) k =
      (items.filter (isOcc k)).foldl stat_step (lookupStat m k) := by
  induction items generalizing m with
  | nil => simp [processOrder]
  | cons p items ih =>
    simp only [processOrder, List.foldl_cons] at *
    rw [ih (processItem m p), lookupStat_processItem]
    by_cases h : isOcc k p
    · simp [List.filter_cons, h]
    · simp [List.filter_cons, h]

theorem lookupStat_scan_from (fetched : List (Option (List LineItem)))
    (m : List (ℕ × Stat)) (k : ℕ) :
    lookupStat (fetched.foldl
        (fun m o => match o with | some items => processOrder m items | none => m) m) k =
      (((fetched.filterMap id).flatten).filter (isOcc k)).foldl stat_step (lookupStat m k) := by
  induction fetched generalizing m with
  | nil => simp
  | cons o rest ih =>
    cases o with
    | none =>
      have hfm : List.filterMap id (none :: rest) = List.filterMap id rest := rfl
      simp only [List.foldl_cons, hfm]
      exact ih m
    | some items =>
      have hfm : List.filterMap id (some items :: rest) =
          items :: List.filterMap id rest := rfl
      simp only [List.foldl_cons, hfm, List.flatten_cons, List.filter_append,
        List.foldl_append]
      rw [ih (processOrder m items), lookupStat_processOrder]

theorem lookupStat_runScan (fetched : List (Option (List LineItem))) (k : ℕ) :
    lookupStat (runScan fetched) k = foldStat (occList k fetched) := by
  unfold runScan foldStat occList
  rw [lookupStat_scan_from]
  rfl

theorem optFreq_stat_step (acc : Option Stat) (p : LineItem) :
    optFreq (stat_step acc p) = optFreq acc + 1 := by
  cases acc <;> simp [stat_step, optFreq, initStat, updStat]

theorem optFreq_foldl (ps : List LineItem) (acc : Option Stat) :
    optFreq (ps.foldl stat_step acc) = optFreq acc + ps.length := by
  induction ps generalizing acc with
  | nil => simp
  | cons p ps ih =>
    rw [List.foldl_cons, ih, optFreq_stat_step]
    simp only [List.length_cons]
    omega

theorem freqOf_eq_optFreq (m : List (ℕ × Stat)) (k : ℕ) :
    freqOf m k = optFreq (lookupStat m k) := by
  unfold freqOf optFreq
  cases lookupStat m k <;> rfl

theorem countP_flatten (p : LineItem → Bool) (L : List (List LineItem)) :
    L.flatten.countP p = (L.map (fun l => l.countP p)).sum := by
  induction L with
  | nil => simp
  | cons l L ih => simp [List.countP_append, ih]

/-- **C2** (confirmed): after an aggregation run, the frequency recorded
for a product id equals the number of line-item occurrences of that
product id — counted only when both the resolved product id and the
resolved name are present (truthy) — summed across all successfully
processed orders; two line entries of one order for the same product
contribute 2. -/
theorem frequent_frequency_counts (fetched : List (Option (List LineItem))) (k : ℕ) :
    freqOf (runScan fetched) k = occCount k fetched := by
  rw [freqOf_eq_optFreq, lookupStat_runScan]
  unfold foldStat occList occCount
  rw [optFreq_foldl]
  simp only [optFreq, Nat.zero_add]
  rw [← List.countP_eq_length_filter, countP_flatten]

theorem updStat_priced (st : Stat) (k : ℕ) (name : String) (p : ℚ) (hp : p ≠ 0) :
    updStat st (mkPricedItem k name p) =
      { frequency := st.frequency + 1
        total_quantity := st.total_quantity + 1
        average_price :=
          (st.average_price * (st.frequency : ℚ) + p) / ((st.frequency : ℚ) + 1) } := by
  have htp : (p != 0) = true := by simp [hp]
  simp only [updStat, mkPricedItem, pyOrQD, truthyQ, Option.getD_some, htp, if_true]
  rw [Stat.mk.injEq]
  refine ⟨rfl, by simp, ?_⟩
  push_cast
  ring_nf

theorem initStat_priced (k : ℕ) (name : String) (p : ℚ) (hp : p ≠ 0) :
    initStat (mkPricedItem k name p) =
      { frequency := 1, total_quantity := 1, average_price := p } := by
  have htp : truthyQ (some p) = true := by simp [truthyQ, hp]
  simp only [initStat, mkPricedItem, pyOrQD, htp, if_true, Option.getD_some]
  rw [Stat.mk.injEq]
  exact ⟨rfl, by norm_num, rfl⟩

theorem stat_fold_priced (k : ℕ) (name : String) (rest : List ℚ)
    (hnz : ∀ p ∈ rest, p ≠ 0) (n : ℕ) (hn : 0 < n) (tq s : ℚ) :
    (rest.map (mkPricedItem k name)).foldl stat_step
        (some ⟨n, tq, s / (n : ℚ)⟩) =
      some ⟨n + rest.length, tq + (rest.length : ℚ),
            (s + rest.sum) / ((n : ℚ) + (rest.length : ℚ))⟩ := by
  induction rest generalizing n tq s with
  | nil => simp
  | cons p ps ih =>
    have hp : p ≠ 0 := hnz p (List.mem_cons_self p ps)
    have hn' : (n : ℚ) ≠ 0 := Nat.cast_ne_zero.mpr hn.ne'
    have hstep : stat_step (some ⟨n, tq, s / (n : ℚ)⟩) (mkPricedItem k name p) =
        some ⟨n + 1, tq + 1, (s + p) / (((n + 1 : ℕ)) : ℚ)⟩ := by
      show some (updStat ⟨n, tq, s / (n : ℚ)⟩ (mkPricedItem k name p)) = _
      rw [updStat_priced _ _ _ _ hp]
      have : s / (n : ℚ) * (n : ℚ) = s := div_mul_cancel₀ _ hn'
      simp only [this]
      congr 1
      push_cast
      ring_nf
    rw [List.map_cons, List.foldl_cons, hstep,
      ih (fun q hq => hnz q (List.mem_cons_of_mem _ hq)) (n + 1) (by omega) (tq + 1) (s + p)]
    congr 1
    rw [Stat.mk.injEq]
    refine ⟨by simp [List.length_cons]; omega, ?_, ?_⟩
    · simp only [List.length_cons]
      push_cast
      ring
    · simp only [List.length_cons, List.sum_cons]
      push_cast
      ring_nf

/-- **C1** (corrected): for a product whose counted occurrences all carry
a present, nonzero price, the stored `average_price` after the scan equals
the exact arithmetic mean of those prices (and `frequency` their number).
The claim as frozen fails when an occurrence lacks a truthy price: see the
counterexample, where the occurrence still increments `frequency` but
contributes nothing to the average, so the stored value is not the mean of
the observed prices. -/
theorem frequent_average_price (fetched : List (Option (List LineItem))) (k : ℕ)
    (name : String) (prices : List ℚ)
    (hocc : occList k fetched = prices.map (mkPricedItem k name))
    (hne : prices ≠ []) (hnz : ∀ p ∈ prices, p ≠ 0) :
    lookupStat (runScan fetched) k =
      some { frequency := prices.length
             total_quantity := (prices.length : ℚ)
             average_price := prices.sum / (prices.length : ℚ) } := by
  rw [lookupStat_runScan, hocc]
  cases prices with
  | nil => exact absurd rfl hne
  | cons p ps =>
    have hp : p ≠ 0 := hnz p (List.mem_cons_self p ps)
    unfold foldStat
    rw [List.map_cons, List.foldl_cons]
    have hinit : stat_step none (mkPricedItem k name p) =
        some ⟨1, 1, p / ((1 : ℕ) : ℚ)⟩ := by
      show some (initStat (mkPricedItem k name p)) = _
      rw [initStat_priced _ _ _ hp]
      norm_num
    rw [hinit, stat_fold_priced k name ps (fun q hq => hnz q (List.mem_cons_of_mem _ hq))
      1 one_pos 1 p]
    congr 1
    rw [Stat.mk.injEq]
    refine ⟨by simp [List.length_cons, Nat.add_comm], ?_, ?_⟩
    · simp only [List.length_cons]
      push_cast
      ring
    · simp only [List.length_cons, List.sum_cons]
      push_cast
      ring_nf

/-- Witness for C1's amended theorem: three orders each containing product
5 at prices 10, 12, 14 yield frequency 3, total quantity 3 and average
price 12 (the spec's own scenario). -/
theorem frequent_average_price_witness :
    lookupStat (runScan [some [mkPricedItem 5 "Milch" 10], some [mkPricedItem 5 "Milch" 12],
      some [mkPricedItem 5 "Milch" 14]]) 5 =
      some { frequency := 3, total_quantity := 3, average_price := 12 } := by
  have h := frequent_average_price
    [some [mkPricedItem 5 "Milch" 10], some [mkPricedItem 5 "Milch" 12],
      some [mkPricedItem 5 "Milch" 14]] 5 "Milch" [10, 12, 14] rfl
    (by simp) (by norm_num)
  rw [h]
  norm_num [List.sum_cons, List.sum_nil]

/-- Counterexample to C1 as frozen: product 5 occurs three times, with
observed prices 10 and 20 and one occurrence without a price.  The stored
average is 40/3, not the arithmetic mean 15 of the observed prices —
because the unpriced occurrence incremented `frequency` (the `n` of the
incremental formula) without entering the average. -/
theorem frequent_average_price_counterexample :
    lookupStat (runScan [some [mkPricedItem 5 "Brot" 10, mkUnpricedItem 5 "Brot",
      mkPricedItem 5 "Brot" 20]]) 5 =
      some { frequency := 3, total_quantity := 3, average_price := 40/3 } ∧
    (40/3 : ℚ) ≠ (10 + 20) / 2 := by
  constructor
  · rw [lookupStat_runScan]
    have h1 : occList 5 [some [mkPricedItem 5 "Brot" 10, mkUnpricedItem 5 "Brot",
        mkPricedItem 5 "Brot" 20]] =
        [mkPricedItem 5 "Brot" 10, mkUnpricedItem 5 "Brot", mkPricedItem 5 "Brot" 20] := rfl
    rw [h1]
    norm_num [foldStat, List.foldl_cons, List.foldl_nil, stat_step, updStat, initStat,
      mkPricedItem, mkUnpricedItem, pyOrQD, truthyQ, Stat.mk.injEq]
  · norm_num

/-- Counterexample to C3 as frozen: for the response body
`{"data": []}` the gateway's send operation (`_make_request`) returns the
raw object itself, not the nested `data` value the claim says it is
normalized to — envelope unwrapping happens in the individual callers. -/
theorem make_request_normalize_counterexample :
    make_request_value (some (.obj [("data", .arr [])])) ≠
      spec_gateway_normalize (.obj [("data", .arr [])]) := by
  intro h
  simp [make_request_value, spec_gateway_normalize, jlookup] at h

/-- **C3** (corrected): `_make_request` returns the decoded JSON body
unchanged (a list as-is, an object as-is) and an empty response body as an
empty object; the `data`-envelope unwrapping the claim describes is
performed by the individual callers — `get_order_history` returns a list
response as-is and extracts a list-valued `data` member from an object
response, and `get_order_detail` returns the `data` member of an object
response when present, the raw object otherwise. -/
theorem make_request_normalization (j : Json) (l : List Json)
    (kvs kvs' : List (String × Json)) (v : Json)
    (hh : jlookup kvs "data" = some (.arr l))
    (hd : jlookup kvs' "data" = some v) :
    make_request_value (some j) = j ∧
    make_request_value none = .obj [] ∧
    get_order_history_value (.arr l) = .arr l ∧
    get_order_history_value (.obj kvs) = .arr l ∧
    get_order_detail_value (.obj kvs') = v := by
  refine ⟨rfl, rfl, rfl, ?_, ?_⟩
  · simp only [get_order_history_value, jlookupD, hh, Option.getD_some]
  · simp only [get_order_detail_value, jlookupD, hd, Option.getD_some]

/-- Witness for C3's amended theorem at concrete inputs. -/
theorem make_request_normalization_witness :
    make_request_value (some (.bool true)) = .bool true ∧
    make_request_value none = .obj [] ∧
    get_order_history_value (.arr [.null]) = .arr [.null] ∧
    get_order_history_value (.obj [("data", .arr [.null])]) = .arr [.null] ∧
    get_order_detail_value (.obj [("data", .num 7)]) = .num 7 :=
  make_request_normalization (.bool true) [.null]
    [("data", .arr [.null])] [("data", .num 7)] (.num 7) rfl rfl

/-- Counterexample to C4 as frozen: the reservation lookup also returns
the NONE state when the upstream query succeeds with an empty (falsy)
object body — `return response.get("data", response) if response else
None` — so NONE does not imply a 404 failure. -/
theorem get_current_reservation_counterexample :
    get_current_reservation (.ok (.obj [])) = .ok .null := rfl

/-- **C4** (corrected): the reservation lookup returns the NONE state when
the upstream query fails with HTTP status 404, and every other failure
(other status codes, and connection errors carrying no status) propagates
to the caller; but NONE is also produced on success when the response body
is a falsy object or its `data` member is null, so NONE is not equivalent
to a 404. -/
theorem get_current_reservation_404 (e : KErr) (h : e.status ≠ some 404) :
    get_current_reservation (.error ⟨some 404⟩) = .ok .null ∧
    get_current_reservation (.error e) = .error e := by
  constructor
  · rfl
  · simp [get_current_reservation, h]

/-- Witness for C4's amended theorem: a 500 error propagates while a 404
yields NONE. -/
theorem get_current_reservation_404_witness :
    get_current_reservation (.error ⟨some 404⟩) = .ok .null ∧
    get_current_reservation (.error ⟨some 500⟩) = .error ⟨some 500⟩ :=
  get_current_reservation_404 ⟨some 500⟩ (by simp)

theorem update_cookie_ne_nil (l : List (String × String)) (n v : String) :
    update_cookie l n v ≠ [] := by
  cases l with
  | nil => simp [update_cookie]
  | cons kv rest =>
    simp only [update_cookie]
    split <;> simp

theorem parse_cookie_user_id (s : Session) (h : String) :
    (parse_cookie s h).user_id = s.user_id := by
  simp only [parse_cookie]
  split <;> rfl

/-- Counterexample to C5 as frozen: merging the `Set-Cookie` header
`a=b` into the empty session (which the gateway does on any successful
response, including the login request itself before credentials are
validated) yields a session with a cookie but no user id — neither
authenticated nor entirely empty. -/
theorem session_invariant_counterexample :
    session_authenticated (parse_cookie empty_session "a=b") = false ∧
    session_empty (parse_cookie empty_session "a=b") = false := by
  constructor <;> decide

/-- **C5** (corrected): the all-or-nothing session invariant holds after
logout/clear, is preserved by `Set-Cookie` merges into an already
authenticated session, and is established by a successful login on a
session that holds cookies; but a gateway call that merges a `Set-Cookie`
header into an unauthenticated session leaves cookies non-empty with
`user_id` unset — a partially valid state (see the counterexample). -/
theorem session_lifecycle (s : Session) (hauth : session_authenticated s = true)
    (hdr : String) (s' : Session) (hc : s'.cookies ≠ []) (uid : ℚ) (addr : Option ℚ) :
    session_empty clear_session = true ∧
    session_authenticated (parse_cookie s hdr) = true ∧
    session_authenticated (login_success s' uid addr) = true := by
  refine ⟨rfl, ?_, ?_⟩
  · simp only [session_authenticated, Bool.and_eq_true] at hauth ⊢
    refine ⟨?_, by rw [parse_cookie_user_id]; exact hauth.2⟩
    simp only [parse_cookie]
    split
    · cases hu : update_cookie s.cookies _ _ with
      | nil => exact absurd hu (update_cookie_ne_nil _ _ _)
      | cons a b => simp [hu]
    · exact hauth.1
  · simp only [session_authenticated, login_success, Option.isNone_some,
      Bool.not_false, Bool.and_true]
    cases hcc : s'.cookies with
    | nil => exact absurd hcc hc
    | cons a b => simp

/-- Witness for C5's amended theorem at concrete sessions. -/
theorem session_lifecycle_witness :
    session_empty clear_session = true ∧
    session_authenticated
      (parse_cookie ⟨[("sid", "x")], some 42, none⟩ "a=b") = true ∧
    session_authenticated (login_success ⟨[("c", "d")], none, none⟩ 42 none) = true :=
  session_lifecycle ⟨[("sid", "x")], some 42, none⟩ (by decide) "a=b"
    ⟨[("c", "d")], none, none⟩ (by decide) 42 none

theorem cookies_of_json_roundtrip (l : List (String × String)) :
    cookies_of_json (.obj (l.map (fun kv => (kv.1, .str kv.2)))) = l := by
  induction l with
  | nil => rfl
  | cons kv rest ih =>
    simp only [cookies_of_json, List.map_cons, List.filterMap_cons] at ih ⊢
    rw [ih]

/-- **C6** (code_bug): saving any session and loading it back reproduces
the identical session, and a missing file or one whose content fails to
decode as JSON yields the empty session; but a file holding valid JSON
that is not an object — e.g. the list `[]` — raises an uncaught
`AttributeError` from `data.get` on a non-dict, contradicting the
never-raises contract that the `except (json.JSONDecodeError, IOError)`
handler shows is intended. -/
theorem session_store_roundtrip_bug :
    (∀ s : Session, load_session (.content (save_session s)) = .ok s) ∧
    load_session .missing = .ok empty_session ∧
    load_session .malformed = .ok empty_session ∧
    load_session (.content (.arr [])) = .error "AttributeError" := by
  refine ⟨?_, rfl, rfl, rfl⟩
  intro s
  obtain ⟨c, u, a⟩ := s
  cases u <;> cases a <;>
    simp [load_session, save_session, jlookupD, jlookup, id_of_json,
      cookies_of_json_roundtrip,
      show ("cookies" : String) ≠ "user_id" by decide,
      show ("cookies" : String) ≠ "address_id" by decide,
      show ("user_id" : String) ≠ "cookies" by decide,
      show ("user_id" : String) ≠ "address_id" by decide,
      show ("address_id" : String) ≠ "cookies" by decide,
      show ("address_id" : String) ≠ "user_id" by decide]

theorem rate_limit_ge (last now : ℚ) :
    last + min_request_interval ≤ rate_limit last now := by
  unfold rate_limit min_request_interval
  split
  · linarith
  · linarith [le_of_not_lt (by assumption : ¬ now - last < min_request_interval),
      show min_request_interval = 1/10 from rfl]

/-- **C7** (confirmed): in the timing model (exact clock reads, `sleep`
advancing the clock by exactly the requested duration — real sleeps are at
least as long, so the bound holds a fortiori), every two consecutive
returns of `_rate_limit` — and hence every two consecutive requests, since
`_make_request` calls it before each request — are separated by at least
the configured 100 ms: the limiter sleeps for the remaining time when
invoked early and records the new timestamp. -/
theorem rate_limit_spacing (last : ℚ) (ts : List ℚ) :
    List.Chain' (fun a b => a + min_request_interval ≤ b) (rate_trace last ts) := by
  induction ts generalizing last with
  | nil => simp [rate_trace]
  | cons t ts ih =>
    rw [rate_trace, List.chain'_cons']
    refine ⟨?_, ih (rate_limit last t)⟩
    intro b hb
    cases ts with
    | nil => simp [rate_trace] at hb
    | cons t' ts' =>
      simp only [rate_trace, List.head?_cons, Option.mem_def, Option.some.injEq] at hb
      subst hb
      exact rate_limit_ge _ _

/-- Counterexample to C8 as frozen: a slot with empty capacity message,
capacity tier not `GREEN` and 70% free capacity is classified `limited` by
the code (the tier string participates in the cascade) but `available` by
the claim's percent-only tiering. -/
theorem slot_status_counterexample :
    slot_status "" "" 70 ≠ spec_slot_status "" 70 := by
  decide

/-- **C8** (corrected): the slot status cascade is: booked out when the
capacity message equals the fully-booked sentinel `"Ausgebucht"` or the
free-capacity percent is 0 (or, residually, when the tier is not `GREEN`
and the percent is negative); available only when additionally the
`capacity` tier equals `GREEN` and the percent is at least 50; limited
when the tier is `GREEN` or the percent is positive — the tier string
participates, so the tiering is not by percent alone. -/
theorem slot_status_cases (msg cap : String) (pct : ℚ) :
    (slot_status msg cap pct = .bookedOut ↔
      (msg = "Ausgebucht" ∨ pct = 0 ∨ (cap ≠ "GREEN" ∧ pct < 0))) ∧
    (slot_status msg cap pct = .available ↔
      (msg ≠ "Ausgebucht" ∧ pct ≠ 0 ∧ cap = "GREEN" ∧ 50 ≤ pct)) ∧
    (slot_status msg cap pct = .limited ↔
      (msg ≠ "Ausgebucht" ∧ pct ≠ 0 ∧ (cap = "GREEN" ∨ 0 < pct) ∧
        ¬(cap = "GREEN" ∧ 50 ≤ pct))) := by
  unfold slot_status
  split
  · rename_i h1
    refine ⟨⟨fun _ => ?_, fun _ => rfl⟩, ⟨fun h => ?_, fun h => ?_⟩, ⟨fun h => ?_, fun h => ?_⟩⟩
    · rcases h1 with h1 | h1
      · exact Or.inl h1
      · exact Or.inr (Or.inl h1)
    · exact absurd h (by simp)
    · rcases h1 with h1 | h1
      · exact absurd h1 h.1
      · exact absurd h1 h.2.1
    · exact absurd h (by simp)
    · rcases h1 with h1 | h1
      · exact absurd h1 h.1
      · exact absurd h1 h.2.1
  · rename_i h1
    push_neg at h1
    split
    · rename_i h2
      refine ⟨⟨fun h => ?_, fun h => ?_⟩, ⟨fun _ => ⟨h1.1, h1.2, h2.1, ?_⟩, fun _ => rfl⟩,
        ⟨fun h => ?_, fun h => ?_⟩⟩
      · exact absurd h (by simp)
      · rcases h with h | h | h
        · exact absurd h h1.1
        · exact absurd h h1.2
        · exact absurd h2.1 h.1
      · exact_mod_cast h2.2
      · exact absurd h (by simp)
      · exact absurd ⟨h2.1, h2.2⟩ h.2.2.2
    · rename_i h2
      push_neg at h2
      split
      · rename_i h3
        refine ⟨⟨fun h => ?_, fun h => ?_⟩, ⟨fun h => ?_, fun h => ?_⟩,
          ⟨fun _ => ⟨h1.1, h1.2, h3, fun hc => ?_⟩, fun _ => rfl⟩⟩
        · exact absurd h (by simp)
        · rcases h with h | h | h
          · exact absurd h h1.1
          · exact absurd h h1.2
          · rcases h3 with h3 | h3
            · exact absurd h3 h.1
            · exact absurd h3 (not_lt.mpr h.2.le)
        · exact absurd h (by simp)
        · exact absurd (h2 h.2.2.1) (not_lt.mpr h.2.2.2)
        · exact absurd (h2 hc.1) (not_lt.mpr hc.2)
      · rename_i h3
        push_neg at h3
        refine ⟨⟨fun _ => Or.inr (Or.inr ⟨?_, ?_⟩), fun _ => rfl⟩,
          ⟨fun h => ?_, fun h => ?_⟩, ⟨fun h => ?_, fun h => ?_⟩⟩
        · exact h3.1
        · exact lt_of_le_of_ne h3.2 h1.2
        · exact absurd h (by simp)
        · exact absurd h.2.2.1 h3.1
        · exact absurd h (by simp)
        · rcases h.2.2.1 with hg | hp
          · exact absurd hg h3.1
          · exact absurd hp (not_lt.mpr h3.2)

theorem bucket_foldl_length (bs : List (String × Json)) (acc : List Json) :
    (bs.foldl (fun acc kv => match kv.2 with | .arr l => acc ++ l | _ => acc) acc).length =
      acc.length + (bs.map (fun kv => match kv.2 with | .arr l => l.length | _ => 0)).sum := by
  induction bs generalizing acc with
  | nil => simp
  | cons kv bs ih =>
    rw [List.foldl_cons, List.map_cons, List.sum_cons]
    cases h : kv.2 <;> simp [h, ih, List.length_append, Nat.add_assoc]

theorem day_slots_length (j : Json) : (day_slots j).length = bucket_size_sum j := by
  cases j <;> try rfl
  simpa [day_slots, bucket_size_sum] using bucket_foldl_length _ []

/-- **C9** (confirmed): in the delivery-slot flattening, a day whose hour
buckets flatten to an empty list (including a day whose `slots` field is
not a mapping, or a non-dict day) is omitted from `all_days`, so every
produced `SlotDay` has a non-empty slot list; and the flattened list's
length equals the sum of the sizes of the day's list-valued hour buckets. -/
theorem slot_day_flattening :
    (∀ (raw : List Json) (sd : SlotDay), sd ∈ all_days raw → sd.slots ≠ []) ∧
    (∀ (day : Json) (sd : SlotDay), flatten_day day = some sd →
      sd.slots.length = day_bucket_sum day) := by
  constructor
  · intro raw sd hmem
    unfold all_days at hmem
    rw [List.mem_filterMap] at hmem
    obtain ⟨day, _, hf⟩ := hmem
    cases day with
    | obj kvs =>
      simp only [flatten_day] at hf
      split at hf
      · exact Option.noConfusion hf
      · rename_i hne
        cases hf
        intro hnil
        apply hne
        rw [List.isEmpty_iff]
        exact hnil
    | null => exact Option.noConfusion hf
    | bool b => exact Option.noConfusion hf
    | num q => exact Option.noConfusion hf
    | str s => exact Option.noConfusion hf
    | arr xs => exact Option.noConfusion hf
  · intro day sd hf
    cases day with
    | obj kvs =>
      simp only [flatten_day] at hf
      split at hf
      · exact Option.noConfusion hf
      · cases hf
        exact day_slots_length _
    | null => exact Option.noConfusion hf
    | bool b => exact Option.noConfusion hf
    | num q => exact Option.noConfusion hf
    | str s => exact Option.noConfusion hf
    | arr xs => exact Option.noConfusion hf

/-- Witness for C9 at the spec's own scenario: a day with three hour
buckets of sizes 2, 1 and 4 flattens to a non-empty 7-slot day. -/
theorem slot_day_flattening_witness :
    (⟨Json.str "d1", Json.str "Mo",
      [Json.null, Json.null, Json.null, Json.null, Json.null, Json.null, Json.null]⟩ :
        SlotDay).slots ≠ [] ∧
    ([Json.null, Json.null, Json.null, Json.null, Json.null, Json.null,
        Json.null] : List Json).length =
      day_bucket_sum (Json.obj [("date", Json.str "d1"), ("label", Json.str "Mo"),
        ("slots", Json.obj [("8", Json.arr [Json.null, Json.null]),
          ("9", Json.arr [Json.null]),
          ("10", Json.arr [Json.null, Json.null, Json.null, Json.null])])]) := by
  constructor
  · refine slot_day_flattening.1
      [Json.obj [("availabilityDays",
        Json.arr [Json.obj [("date", Json.str "d1"), ("label", Json.str "Mo"),
          ("slots", Json.obj [("8", Json.arr [Json.null, Json.null]),
            ("9", Json.arr [Json.null]),
            ("10", Json.arr [Json.null, Json.null, Json.null, Json.null])])]])]] _ ?_
    rw [show all_days [Json.obj [("availabilityDays",
        Json.arr [Json.obj [("date", Json.str "d1"), ("label", Json.str "Mo"),
          ("slots", Json.obj [("8", Json.arr [Json.null, Json.null]),
            ("9", Json.arr [Json.null]),
            ("10", Json.arr [Json.null, Json.null, Json.null, Json.null])])]])]] =
      [⟨Json.str "d1", Json.str "Mo",
        [Json.null, Json.null, Json.null, Json.null, Json.null, Json.null, Json.null]⟩]
      from rfl]
    exact List.mem_singleton.mpr rfl
  · exact slot_day_flattening.2
      (Json.obj [("date", Json.str "d1"), ("label", Json.str "Mo"),
        ("slots", Json.obj [("8", Json.arr [Json.null, Json.null]),
          ("9", Json.arr [Json.null]),
          ("10", Json.arr [Json.null, Json.null, Json.null, Json.null])])]) _ rfl

theorem term_pages_purify (fetch : String → ℕ → Except KErr (List SProduct)) (term : String)
    (limit maxOff : ℕ) (hl : 0 < limit) (fuel offset : ℕ)
    (acc : List (Option ℕ × FavEntry)) :
    term_pages (fetch term) limit maxOff offset fuel acc =
      term_pages (purify_fetch fetch term) limit maxOff offset fuel acc := by
  induction fuel generalizing offset acc with
  | zero => rfl
  | succ fuel ih =>
    simp only [term_pages]
    split
    · cases hf : fetch term offset with
      | error e => simp [purify_fetch, hf, hl]
      | ok l =>
        simp only [purify_fetch, hf]
        split
        · rfl
        · exact ih _ _
    · rfl

theorem fav_mem_false (acc : List (Option ℕ × FavEntry)) (k : Option ℕ)
    (h : fav_mem acc k = false) : ∀ kv ∈ acc, kv.1 ≠ k := by
  induction acc with
  | nil => simp
  | cons kv rest ih =>
    simp only [fav_mem, Bool.or_eq_false_iff] at h
    intro x hx
    rcases List.mem_cons.mp hx with hx | hx
    · subst hx
      simpa using h.1
    · exact ih h.2 x hx

theorem insert_fav_inv (acc : List (Option ℕ × FavEntry)) (p : SProduct)
    (h1 : acc.Pairwise (fun x y => x.1 ≠ y.1)) (h2 : ∀ kv ∈ acc, kv.2.id = kv.1) :
    (insert_fav acc p).Pairwise (fun x y => x.1 ≠ y.1) ∧
      ∀ kv ∈ insert_fav acc p, kv.2.id = kv.1 := by
  unfold insert_fav
  split
  · rename_i hcond
    rw [Bool.and_eq_true, Bool.not_eq_true'] at hcond
    constructor
    · rw [List.pairwise_append]
      refine ⟨h1, List.pairwise_singleton _ _, ?_⟩
      intro x hx y hy
      rw [List.mem_singleton] at hy
      subst hy
      exact fav_mem_false acc p.productId hcond.2 x hx
    · intro kv hkv
      rcases List.mem_append.mp hkv with hkv | hkv
      · exact h2 kv hkv
      · rw [List.mem_singleton] at hkv
        subst hkv
        rfl
  · exact ⟨h1, h2⟩

theorem foldl_insert_inv (ps : List SProduct) (acc : List (Option ℕ × FavEntry))
    (h1 : acc.Pairwise (fun x y => x.1 ≠ y.1)) (h2 : ∀ kv ∈ acc, kv.2.id = kv.1) :
    (ps.foldl insert_fav acc).Pairwise (fun x y => x.1 ≠ y.1) ∧
      ∀ kv ∈ ps.foldl insert_fav acc, kv.2.id = kv.1 := by
  induction ps generalizing acc with
  | nil => exact ⟨h1, h2⟩
  | cons p ps ih =>
    rw [List.foldl_cons]
    obtain ⟨g1, g2⟩ := insert_fav_inv acc p h1 h2
    exact ih _ g1 g2

theorem term_pages_inv (fetch : ℕ → Except KErr (List SProduct)) (limit maxOff : ℕ)
    (fuel offset : ℕ) (acc : List (Option ℕ × FavEntry))
    (h1 : acc.Pairwise (fun x y => x.1 ≠ y.1)) (h2 : ∀ kv ∈ acc, kv.2.id = kv.1) :
    (term_pages fetch limit maxOff offset fuel acc).Pairwise (fun x y => x.1 ≠ y.1) ∧
      ∀ kv ∈ term_pages fetch limit maxOff offset fuel acc, kv.2.id = kv.1 := by
  induction fuel generalizing offset acc with
  | zero => exact ⟨h1, h2⟩
  | succ fuel ih =>
    simp only [term_pages]
    split
    · cases hf : fetch offset with
      | error e => exact ⟨h1, h2⟩
      | ok l =>
        obtain ⟨g1, g2⟩ := foldl_insert_inv l acc h1 h2
        by_cases hlen : l.length < limit
        · simp only [if_pos hlen]
          exact ⟨g1, g2⟩
        · simp only [if_neg hlen]
          exact ih _ _ g1 g2
    · exact ⟨h1, h2⟩

/-- **C10** (confirmed): favorites discovery never propagates a paging
error — replacing every failing probe fetch by an empty successful page
(which ends that term's paging exactly as the `except ... break` does)
leaves the result unchanged, so an error ends one term's paging while the
remaining probe terms still contribute; and the returned list is
deduplicated by product id (pairwise-distinct ids, first occurrence wins
by construction of the map) and sorted case-insensitively by name. -/
theorem get_favorites_error_isolation (fetch : String → ℕ → Except KErr (List SProduct)) :
    get_favorites fetch = get_favorites (purify_fetch fetch) ∧
    List.Pairwise (fun a b => fav_key a ≤ fav_key b) (get_favorites fetch) ∧
    List.Pairwise (fun a b => a.id ≠ b.id) (get_favorites fetch) := by
  have hl : 0 < 500 := by norm_num
  refine ⟨?_, ?_, ?_⟩
  · unfold get_favorites
    simp only [List.foldl_cons, List.foldl_nil]
    rw [term_pages_purify fetch "e" 500 1000 hl,
        term_pages_purify fetch "a" 500 1000 hl,
        term_pages_purify fetch "n" 500 1000 hl,
        term_pages_purify fetch "i" 500 1000 hl]
  · unfold get_favorites
    refine List.Pairwise.imp ?_ (List.sorted_mergeSort ?_ ?_ _)
    · intro a b h
      exact of_decide_eq_true h
    · intro a b c hab hbc
      rw [decide_eq_true_eq] at hab hbc ⊢
      exact le_trans hab hbc
    · intro a b
      rw [Bool.or_eq_true, decide_eq_true_eq, decide_eq_true_eq]
      exact le_total _ _
  · unfold get_favorites
    simp only [List.foldl_cons, List.foldl_nil]
    have i0 : (([] : List (Option ℕ × FavEntry)).Pairwise (fun x y => x.1 ≠ y.1)) ∧
        ∀ kv ∈ ([] : List (Option ℕ × FavEntry)), kv.2.id = kv.1 := by simp
    have i1 := term_pages_inv (fetch "e") 500 1000 2 0 [] i0.1 i0.2
    have i2 := term_pages_inv (fetch "a") 500 1000 2 0 _ i1.1 i1.2
    have i3 := term_pages_inv (fetch "n") 500 1000 2 0 _ i2.1 i2.2
    have i4 := term_pages_inv (fetch "i") 500 1000 2 0 _ i3.1 i3.2
    have hvals : List.Pairwise (fun a b => a.id ≠ b.id)
        ((term_pages (fetch "i") 500 1000 0 2
          (term_pages (fetch "n") 500 1000 0 2
            (term_pages (fetch "a") 500 1000 0 2
              (term_pages (fetch "e") 500 1000 0 2 [])))).map (fun kv => kv.2)) := by
      rw [List.pairwise_map]
      refine List.Pairwise.imp_of_mem ?_ i4.1
      intro a b ha hb hne
      rw [i4.2 a ha, i4.2 b hb]
      exact hne
    have hperm := List.mergeSort_perm
      ((term_pages (fetch "i") 500 1000 0 2
        (term_pages (fetch "n") 500 1000 0 2
          (term_pages (fetch "a") 500 1000 0 2
            (term_pages (fetch "e") 500 1000 0 2 [])))).map (fun kv => kv.2))
      (fun a b => decide (fav_key a ≤ fav_key b))
    exact (hperm.pairwise_iff (fun h => Ne.symm h)).mpr hvals
